/-
Verification of the uplift-sklearn repository's specification against its code.

Two source files are embedded directly:
  * src/usklearn/classifiers/classifier_as_regressor.py  (ClassifierAsRegressor)
  * src/usklearn/datasets/uis.py                         (ARCHIVE, fetch_uis)

The shared dataset pipeline (src/usklearn/datasets/base.py: RemoteFileMetadata
internals, _fetch_remote_csv, i.e. the fetcher, column decoder and assembler)
is not in the repository snapshot; those definitions are modelled from the
specification (sections 4.1-4.3) and are marked as such in their doc comments.
-/
import Mathlib

namespace USK

/-! ## Classifier-as-regressor adapter, embedded from
`src/usklearn/classifiers/classifier_as_regressor.py`. -/

/-- A numpy-style n-dimensional numeric array: a shape together with its
flat (row-major) data.  Numeric entries are modelled as rationals, since the
adapter only rearranges them and never computes with them. -/
structure NDArr where
  shape : List Nat
  data : List Rat
deriving DecidableEq, Repr

/-- A fitted estimator: its named response methods (e.g. predict_proba,
decision_function) mapping an input to an array, and its other attributes
(modelled as opaque string values) for attribute forwarding. -/
structure FittedEstimator (I : Type) where
  methods : String → Option (I → NDArr)
  attrs : String → Option String

/-- An unfitted estimator: `fit` produces a fitted estimator (scikit-learn's
`fit` returns the estimator itself, now fitted); `attrs` are its other
attributes, for attribute forwarding before `fit` was called. -/
structure Estimator (D I : Type) where
  fit : D → FittedEstimator I
  attrs : String → Option String

/-- The adapter's state: the `__init__` fields `estimator`, `response_method`
and `pos_label`, plus `fitted_estimator_`, which is in the instance dict
(`some`) only after `fit` has been called. -/
structure ClassifierAsRegressor (D I : Type) where
  estimator : Estimator D I
  response_method : String
  pos_label : Nat
  fitted_estimator_ : Option (FittedEstimator I)

/-- Errors the adapter can raise.  `UnsupportedResponseShapeError` is the
spec's name for the RuntimeError raised in `predict` when the response has
more than two dimensions; `AttributeError` and `IndexError` model the Python
exceptions of the same names. -/
inductive AdapterError where
  | AttributeError (name : String)
  | UnsupportedResponseShapeError
  | IndexError
deriving DecidableEq, Repr

/-- Column extraction `preds[:, j]` from a 2-d array of `rows` rows and
`cols` columns stored row-major. -/
def colOf (m : NDArr) (rows cols j : Nat) : NDArr :=
  ⟨[rows], (List.range rows).map fun i => m.data.getD (i * cols + j) 0⟩

/-- `ClassifierAsRegressor.predict` (source lines 44-53): look up the
configured response method on the fitted estimator, call it; a response of
more than two dimensions raises; a two-dimensional response is sliced at
column `pos_label`; anything else is returned unchanged. -/
def ClassifierAsRegressor.predict {D I : Type} (c : ClassifierAsRegressor D I)
    (x : I) : Except AdapterError NDArr :=
  match c.fitted_estimator_ with
  | none => .error (.AttributeError "fitted_estimator_")
  | some f =>
    match f.methods c.response_method with
    | none => .error (.AttributeError c.response_method)
    | some resp =>
      let preds := resp x
      if preds.shape.length > 2 then .error .UnsupportedResponseShapeError
      else
        match preds.shape with
        | [rows, cols] =>
          if c.pos_label < cols then .ok (colOf preds rows cols c.pos_label)
          else .error .IndexError
        | _ => .ok preds

/-- `ClassifierAsRegressor.fit` (source lines 41-43): delegate to the wrapped
estimator's `fit`, store the result in `fitted_estimator_`, return self. -/
def ClassifierAsRegressor.fit {D I : Type} (c : ClassifierAsRegressor D I)
    (d : D) : ClassifierAsRegressor D I :=
  { c with fitted_estimator_ := some (c.estimator.fit d) }

/-- Possible values of an attribute lookup on the adapter: one of its own
fields, or a value forwarded from the wrapped (possibly fitted) estimator. -/
inductive AttrVal (D I : Type) where
  | est (e : Estimator D I)
  | fitted (f : FittedEstimator I)
  | str (s : String)
  | nat (n : Nat)
  | fwd (v : String)

/-- Names held in the adapter's own state (instance dict fields). -/
def adapterOwnedNames : List String :=
  ["estimator", "response_method", "pos_label", "fitted_estimator_"]

/-- Python attribute lookup on a ClassifierAsRegressor instance: names in the
instance dict resolve to the adapter's own fields (with `fitted_estimator_`
present only after `fit`; when absent, `__getattr__`'s first branch raises
AttributeError, source lines 56-61); any other name falls through to
`__getattr__`'s forwarding branch (source lines 62-64): to the fitted
estimator when one exists, else to the unfitted wrapped estimator. -/
def ClassifierAsRegressor.getattrFull {D I : Type} (c : ClassifierAsRegressor D I)
    (name : String) : Except AdapterError (AttrVal D I) :=
  if name = "estimator" then .ok (.est c.estimator)
  else if name = "response_method" then .ok (.str c.response_method)
  else if name = "pos_label" then .ok (.nat c.pos_label)
  else if name = "fitted_estimator_" then
    match c.fitted_estimator_ with
    | some f => .ok (.fitted f)
    | none => .error (.AttributeError name)
  else
    match c.fitted_estimator_ with
    | none =>
      match c.estimator.attrs name with
      | some v => .ok (.fwd v)
      | none => .error (.AttributeError name)
    | some f =>
      match f.attrs name with
      | some v => .ok (.fwd v)
      | none => .error (.AttributeError name)

/-! ## Dataset pipeline.

`RemoteFileMetadata`'s fields and `ARCHIVE` come from
`src/usklearn/datasets/uis.py`.  The pipeline itself
(`_fetch_remote_csv` in the missing `src/usklearn/datasets/base.py`)
is modelled from the spec, sections 4.1-4.3. -/

/-- Error taxonomy of spec section 7, plus `RaggedRowError` for the
RawTable invariant of section 3 (a row whose cell count differs from the
header is a fatal decode error). -/
inductive PipelineError where
  | MissingResourceError (logical_name : String)
  | IntegrityError (logical_name : String)
  | SchemaMismatchError (column : String)
  | DecodeError (column : String) (row : Nat)
  | UnknownCategoryError (column : String) (row : Nat)
  | RaggedRowError (row : Nat)
deriving DecidableEq, Repr

/-- Resource descriptor, from `src/usklearn/datasets/uis.py` line 10-11
(the named tuple fields filename, url, checksum). -/
structure RemoteFileMetadata where
  filename : Option String
  url : String
  checksum : Option String
deriving DecidableEq, Repr

/-- The UIS dataset's resource descriptor, `src/usklearn/datasets/uis.py`
lines 10-11: `RemoteFileMetadata(filename=None, url='local:uis_data',
checksum=None)`. -/
def ARCHIVE : RemoteFileMetadata := ⟨none, "local:uis_data", none⟩

/-- Modelled from the spec: the world the fetcher of section 4.1 interacts
with.  The local cache maps logical names to cached file contents (the
cache-root directory resolution is abstracted into this map); `remote` maps a
location (URL or local-store key) to its content when retrievable. -/
structure FetchWorld where
  cache : List (String × String)
  remote : String → Option String

/-- Modelled from the spec: content hash used for integrity verification
(an executable stand-in for the real digest; only its comparison against a
declared checksum matters to the spec). -/
def hashString (s : String) : String :=
  toString (s.toList.foldl (fun a c => (a * 131 + c.toNat) % 1000000007) 7)

/-- Modelled from the spec: the Integrity-Verified Fetcher of section 4.1.
`_fetch_remote_csv`'s fetch step is missing from src/.  A cached artifact is
read and, iff a checksum is declared, verified (mismatch: IntegrityError);
an absent artifact with download disallowed is a MissingResourceError; an
absent artifact with download allowed is retrieved from `url`, persisted to
the cache, and verified the same way; an unreachable remote is modelled as a
MissingResourceError. -/
def fetchRaw (d : RemoteFileMetadata) (logical_name : String) (w : FetchWorld)
    (download_if_missing : Bool) : Except PipelineError (String × FetchWorld) :=
  match w.cache.find? (fun c => c.1 == logical_name) with
  | some entry =>
    match d.checksum with
    | some h =>
      if hashString entry.2 = h then .ok (entry.2, w)
      else .error (.IntegrityError logical_name)
    | none => .ok (entry.2, w)
  | none =>
    if download_if_missing then
      match w.remote d.url with
      | some content =>
        let w2 : FetchWorld := ⟨(logical_name, content) :: w.cache, w.remote⟩
        match d.checksum with
        | some h =>
          if hashString content = h then .ok (content, w2)
          else .error (.IntegrityError logical_name)
        | none => .ok (content, w2)
      | none => .error (.MissingResourceError logical_name)
    else .error (.MissingResourceError logical_name)

/-- Declared type of a column: numeric (integer or float) or categorical
with its ordered value set (spec section 3, ColumnSpec). -/
inductive ColType where
  | int
  | float
  | categ (values : List String)
deriving DecidableEq, Repr

/-- A column declaration: output name, raw source column name, declared
type (spec section 3, ColumnSpec). -/
structure ColumnSpec where
  output_name : String
  raw_source_name : String
  ty : ColType
deriving DecidableEq, Repr

/-- A decoded cell: integer, numeric (an exact decimal `mantissa / 10 ^ exp`
stands in for the float), or a preserved string token. -/
inductive Cell where
  | int (i : Int)
  | num (mantissa : Int) (exp : Nat)
  | str (s : String)
deriving DecidableEq, Repr

/-- The fetched artifact parsed as delimited text: named raw columns of
string cells, plus the data row count (spec section 3, RawTable). -/
structure RawTable where
  cols : List (String × List String)
  nrows : Nat
deriving DecidableEq, Repr

/-- Locate a raw column by name. -/
def RawTable.findCol (t : RawTable) (name : String) : Option (List String) :=
  match t.cols.find? (fun c => c.1 == name) with
  | some c => some c.2
  | none => none

/-- Accumulated value of a list of decimal digit characters. -/
def digitsVal (l : List Char) : Nat :=
  l.foldl (fun a c => a * 10 + (c.toNat - 48)) 0

/-- Split a character list at every occurrence of a separator. -/
def splitOnChar (c : Char) : List Char → List (List Char)
  | [] => [[]]
  | x :: xs =>
    if x = c then [] :: splitOnChar c xs
    else
      match splitOnChar c xs with
      | [] => [[x]]
      | y :: ys => (x :: y) :: ys

/-- Modelled from the spec: parsing a cell as an integer (section 4.2,
numeric decoding): an optional minus sign followed by digits. -/
def parseIntTok (s : String) : Option Int :=
  match s.toList with
  | [] => none
  | '-' :: ds =>
    if ds ≠ [] ∧ ds.all Char.isDigit then some (-(digitsVal ds : Int))
    else none
  | ds =>
    if ds.all Char.isDigit then some (digitsVal ds) else none

/-- Modelled from the spec: parsing a cell as a floating-point number
(section 4.2, numeric decoding); plain decimal literals with optional sign
and fractional part.  The result (m, e) denotes the exact value
`m / 10 ^ e`. -/
def parseDecimal (s : String) : Option (Int × Nat) :=
  let cs := s.toList
  let split : Bool × List Char :=
    match cs with
    | '-' :: r => (true, r)
    | '+' :: r => (false, r)
    | r => (false, r)
  let neg := split.1
  let body := split.2
  let ip := body.takeWhile Char.isDigit
  let rest := body.dropWhile Char.isDigit
  if ip.isEmpty then none
  else
    match rest with
    | [] =>
      let m : Int := (digitsVal ip : Nat)
      some (if neg then -m else m, 0)
    | '.' :: fp =>
      if fp.isEmpty then none
      else if fp.all Char.isDigit then
        let m : Int := (digitsVal ip : Nat) * 10 ^ fp.length + (digitsVal fp : Nat)
        some (if neg then -m else m, fp.length)
      else none
    | _ => none

/-- Modelled from the spec: the Column Decoder of section 4.2 on one cell.
Numeric cells parse as integer/float or fail with a DecodeError naming
column and row; a categorical token must belong to the declared value set
(else UnknownCategoryError) and becomes its zero-based index when
`categ_as_strings` is false or is preserved verbatim when it is true. -/
def decodeCell (ty : ColType) (categ_as_strings : Bool) (name : String)
    (row : Nat) (tok : String) : Except PipelineError Cell :=
  match ty with
  | .int =>
    match parseIntTok tok with
    | some i => .ok (.int i)
    | none => .error (.DecodeError name row)
  | .float =>
    match parseDecimal tok with
    | some p => .ok (.num p.1 p.2)
    | none => .error (.DecodeError name row)
  | .categ values =>
    if tok ∈ values then
      if categ_as_strings then .ok (.str tok)
      else .ok (.int (Int.ofNat (values.indexOf tok)))
    else .error (.UnknownCategoryError name row)

/-- Modelled from the spec: decode one raw column cell by cell, tracking the
row index for error reporting. -/
def decodeColumnFrom (ty : ColType) (categ_as_strings : Bool) (name : String) :
    Nat → List String → Except PipelineError (List Cell)
  | _, [] => .ok []
  | row, tok :: toks =>
    match decodeCell ty categ_as_strings name row tok with
    | .error e => .error e
    | .ok c =>
      match decodeColumnFrom ty categ_as_strings name (row + 1) toks with
      | .error e => .error e
      | .ok cs => .ok (c :: cs)

/-- Modelled from the spec: the Column Decoder of section 4.2 over a list of
column declarations.  Each declared column is located by `raw_source_name`
(absence: SchemaMismatchError) and decoded; output columns keep the declared
order and carry the declared output names. -/
def decodeTable (categ_as_strings : Bool) (raw : RawTable) :
    List ColumnSpec → Except PipelineError (List (String × List Cell))
  | [] => .ok []
  | s :: ss =>
    match raw.findCol s.raw_source_name with
    | none => .error (.SchemaMismatchError s.raw_source_name)
    | some col =>
      match decodeColumnFrom s.ty categ_as_strings s.output_name 0 col with
      | .error e => .error e
      | .ok cells =>
        match decodeTable categ_as_strings raw ss with
        | .error e => .error e
        | .ok rest => .ok ((s.output_name, cells) :: rest)

/-- Index of the first data row whose cell count differs from the header
width, if any. -/
def firstRagged (width : Nat) : Nat → List (List String) → Option Nat
  | _, [] => none
  | i, r :: rs => if r.length ≠ width then some i else firstRagged width (i + 1) rs

/-- Split a line into its comma-separated cells. -/
def splitCSVLine (line : String) : List String :=
  (splitOnChar ',' line.toList).map (fun cs => String.mk cs)

/-- Non-empty lines of the fetched text. -/
def splitLines (content : String) : List String :=
  ((splitOnChar '\x0a' content.toList).map (fun cs => String.mk cs)).filter
    (fun l => l != "")

/-- Modelled from the spec: decoding the fetched artifact as delimited text
into a RawTable (spec section 3): first line is the header of column names,
remaining lines are rows; a row of deviating width is a fatal error. -/
def parseCSV (content : String) : Except PipelineError RawTable :=
  match splitLines content with
  | [] => .error (.SchemaMismatchError "header")
  | header :: rows =>
    let names := splitCSVLine header
    let cells := rows.map (fun r => splitCSVLine r)
    match firstRagged names.length 0 cells with
    | some i => .error (.RaggedRowError i)
    | none =>
      .ok ⟨(List.range names.length).map
            (fun j => (names.getD j "", cells.map (fun r => r.getD j ""))),
           cells.length⟩

/-- One step of a linear congruential pseudo-random generator. -/
def lcgStep (s : Nat) : Nat := (s * 1103515245 + 12345) % 2 ^ 31

/-- Insert `x` at position `k` of a list. -/
def insertAt {α : Type} (x : α) (k : Nat) (l : List α) : List α :=
  l.take k ++ x :: l.drop k

/-- Modelled from the spec: drawing a single row-index permutation from a
pseudo-random generator seeded by the random seed (section 4.3); built by
inserting each next index at a pseudo-random position. -/
def permAux (seed : Nat) : Nat → List Nat × Nat
  | 0 => ([], seed)
  | n + 1 =>
    (insertAt n (lcgStep (permAux seed n).2 % (n + 1)) (permAux seed n).1,
     lcgStep (permAux seed n).2)

/-- The permutation of `[0, n)` drawn from the generator seeded by `seed`. -/
def permOf (seed n : Nat) : List Nat := (permAux seed n).1

/-- Apply a row-index permutation to one decoded column. -/
def applyPerm (p : List Nat) (col : List Cell) : List Cell :=
  p.map (fun i => col.getD i (.int 0))

/-- Modelled from the spec: the assembler's shuffling step (section 4.3):
one permutation is drawn and applied identically to every column. -/
def shuffleCols (seed n : Nat) (cols : List (String × List Cell)) :
    List (String × List Cell) :=
  cols.map (fun c => (c.1, applyPerm (permOf seed n) c.2))

/-- Caller-facing structured result (spec section 3, DatasetBundle). -/
structure DatasetBundle where
  data : List (String × List Cell)
  targets : List (String × List Cell)
  treatment : List (String × List Cell)
  feature_names : List String
  target_names : List String
  descr : Option String
deriving DecidableEq, Repr

/-- Caller-facing result: structured bundle, or the flat tuple
`(features, target_1, ..., target_N, treatment)` selected by `return_X_y`
(spec sections 4.3 and 6). -/
inductive FetchResult where
  | bundle (b : DatasetBundle)
  | tuple (X : List (String × List Cell)) (targets : List (String × List Cell))
      (treatment : List (String × List Cell))
deriving DecidableEq, Repr

/-- Modelled from the spec: `_fetch_remote_csv` of the missing
`src/usklearn/datasets/base.py` — fetch (section 4.1), parse, decode the
declared feature/treatment/target columns (section 4.2), optionally shuffle
every column with the one seeded permutation, and render the caller-selected
shape (section 4.3).  `as_frame` only selects the rendering of the feature
matrix, which this model keeps as named columns either way; `total_attrs` is
passed by the caller but its enforcement is not specified.  An absent
`random_state` means an unseeded generator; the unseeded case is modelled by
seed 0 (no claim depends on it). -/
def fetch_remote_csv (archive : RemoteFileMetadata) (logical_name : String)
    (feature_attrs treatment_attrs target_attrs : List ColumnSpec)
    (categ_as_strings return_X_y as_frame download_if_missing shuffle : Bool)
    (random_state : Option Nat) (total_attrs : Nat) (w : FetchWorld) :
    Except PipelineError FetchResult :=
  match fetchRaw archive logical_name w download_if_missing with
  | .error e => .error e
  | .ok pr =>
    match parseCSV pr.1 with
    | .error e => .error e
    | .ok raw =>
      match decodeTable categ_as_strings raw feature_attrs with
      | .error e => .error e
      | .ok feats =>
        match decodeTable categ_as_strings raw treatment_attrs with
        | .error e => .error e
        | .ok treats =>
          match decodeTable categ_as_strings raw target_attrs with
          | .error e => .error e
          | .ok targs =>
            let n := raw.nrows
            let seed := random_state.getD 0
            let feats2 := if shuffle then shuffleCols seed n feats else feats
            let treats2 := if shuffle then shuffleCols seed n treats else treats
            let targs2 := if shuffle then shuffleCols seed n targs else targs
            if return_X_y then
              .ok (.tuple feats2 targs2 treats2)
            else
              .ok (.bundle ⟨feats2, targs2, treats2,
                    feature_attrs.map (fun s => s.output_name),
                    target_attrs.map (fun s => s.output_name), none⟩)

/-! ## The UIS loader, embedded from `src/usklearn/datasets/uis.py`. -/

/-- Value set of the categorical HC column (uis.py line 127). -/
def hc_values : List String := ["1", "2", "3", "4"]

/-- Value set of the categorical IV column (uis.py line 128). -/
def iv_values : List String := ["1", "2", "3"]

/-- `treatment_descr` (uis.py lines 131-132). -/
def treatment_descr : List ColumnSpec := [⟨"treatment", "TREAT", .int⟩]

/-- `target_descr` (uis.py lines 134-137): the four declared targets. -/
def target_descr : List ColumnSpec :=
  [⟨"target_time", "TIME", .float⟩,
   ⟨"target_censor", "CENSOR", .int⟩,
   ⟨"target_log_time", "Y", .float⟩,
   ⟨"target_FRAC", "FRAC", .float⟩]

/-- `feature_descr` (uis.py lines 139-150); a feature's raw source column is
the feature name itself. -/
def feature_descr : List ColumnSpec :=
  [⟨"AGE", "AGE", .float⟩, ⟨"BECK", "BECK", .float⟩,
   ⟨"HC", "HC", .categ hc_values⟩, ⟨"IV", "IV", .categ iv_values⟩,
   ⟨"NDT", "NDT", .float⟩, ⟨"RACE", "RACE", .int⟩,
   ⟨"SITE", "SITE", .int⟩, ⟨"LEN.T", "LEN.T", .float⟩,
   ⟨"ND1", "ND1", .float⟩, ⟨"ND2", "ND2", .float⟩,
   ⟨"LNDT", "LNDT", .float⟩, ⟨"IV3", "IV3", .int⟩]

/-- The uis module docstring (uis.py lines 1-3), attached as the dataset
description. -/
def uisModuleDoc : String := "The UIS dataset from R quantreg package.\x0a\x0a"

/-- `fetch_uis` (uis.py lines 14-164): call the shared pipeline on the UIS
schema with `total_attrs=17`, then attach the module docstring as `descr`
only when `return_X_y` is false.  The `data_home` cache-root argument is
abstracted into `FetchWorld`. -/
def fetch_uis (w : FetchWorld) (download_if_missing : Bool)
    (random_state : Option Nat)
    (shuffle categ_as_strings return_X_y as_frame : Bool) :
    Except PipelineError FetchResult :=
  match fetch_remote_csv ARCHIVE "uis" feature_descr treatment_descr
      target_descr categ_as_strings return_X_y as_frame download_if_missing
      shuffle random_state 17 w with
  | .error e => .error e
  | .ok ret =>
    if return_X_y then .ok ret
    else
      match ret with
      | .bundle b => .ok (.bundle { b with descr := some uisModuleDoc })
      | t => .ok t

/-- True exactly on an IntegrityError. -/
def errIsIntegrity : PipelineError → Bool
  | .IntegrityError _ => true
  | _ => false

/-- True exactly on an IntegrityError result; used to state that the
integrity branch is unreachable for a descriptor without a checksum. -/
def exceptIntegrity {α : Type} : Except PipelineError α → Bool
  | .error e => errIsIntegrity e
  | .ok _ => false

/-! ## Concrete instances used by witnesses. -/

/-- A 3-dimensional response, for exercising the shape guard. -/
def resp3d : Unit → NDArr := fun _ => ⟨[2, 2, 2], List.replicate 8 0⟩

/-- A 2x2 probability-matrix response. -/
def resp2d : Unit → NDArr := fun _ => ⟨[2, 2], [1/4, 3/4, 1/2, 1/2]⟩

/-- A 1-dimensional (decision-score style) response. -/
def resp1d : Unit → NDArr := fun _ => ⟨[3], [1/2, -1, 2]⟩

/-- An example wrapped estimator exposing one attribute before fitting. -/
def estEx : Estimator Unit Unit :=
  ⟨fun _ => ⟨fun _ => none, fun _ => none⟩,
   fun n => if n = "classes_" then some "unfitted3" else none⟩

/-- A fitted estimator whose predict_proba is 3-dimensional. -/
def fitted3d : FittedEstimator Unit :=
  ⟨fun n => if n = "predict_proba" then some resp3d else none, fun _ => none⟩

/-- A fitted estimator whose predict_proba is a 2x2 matrix. -/
def fitted2d : FittedEstimator Unit :=
  ⟨fun n => if n = "predict_proba" then some resp2d else none, fun _ => none⟩

/-- A fitted estimator whose response is 1-dimensional. -/
def fitted1d : FittedEstimator Unit :=
  ⟨fun n => if n = "decision_function" then some resp1d else none, fun _ => none⟩

/-- Adapter over the 3-d estimator, already fitted. -/
def car3d : ClassifierAsRegressor Unit Unit := ⟨estEx, "predict_proba", 1, some fitted3d⟩

/-- Adapter over the 2-d estimator, already fitted. -/
def car2d : ClassifierAsRegressor Unit Unit := ⟨estEx, "predict_proba", 1, some fitted2d⟩

/-- An adapter before `fit` was called. -/
def carUnfitted : ClassifierAsRegressor Unit Unit := ⟨estEx, "predict_proba", 1, none⟩

/-- A concrete UIS csv artifact: the 17 raw columns and one data row. -/
def uisCSV : String :=
  "AGE,BECK,HC,IV,NDT,RACE,SITE,LEN.T,ND1,ND2,LNDT,IV3,TREAT,TIME,CENSOR,Y,FRAC\x0a30,5.5,1,2,3,0,1,90,1,2,0,1,1,100,1,4.6,1"

/-- A world whose cache already holds the UIS artifact. -/
def uisWorld : FetchWorld := ⟨[("uis", uisCSV)], fun _ => none⟩

/-- A world with an empty cache and an unreachable remote. -/
def emptyWorld : FetchWorld := ⟨[], fun _ => none⟩

/-- A two-column, two-row decoded table for the shuffle witness. -/
def colsEx : List (String × List Cell) :=
  [("a", [.int 10, .int 20]), ("t", [.num 1 0, .num 2 0])]

/-- The decoded feature columns of `uisCSV`. -/
def uisXCols : List (String × List Cell) :=
  [("AGE", [.num 30 0]), ("BECK", [.num 55 1]), ("HC", [.int 0]),
   ("IV", [.int 1]), ("NDT", [.num 3 0]), ("RACE", [.int 0]),
   ("SITE", [.int 1]), ("LEN.T", [.num 90 0]), ("ND1", [.num 1 0]),
   ("ND2", [.num 2 0]), ("LNDT", [.num 0 0]), ("IV3", [.int 1])]

/-- The decoded target columns of `uisCSV`. -/
def uisTargetCols : List (String × List Cell) :=
  [("target_time", [.num 100 0]), ("target_censor", [.int 1]),
   ("target_log_time", [.num 46 1]), ("target_FRAC", [.num 1 0])]

/-- The decoded treatment column of `uisCSV`. -/
def uisTreatCols : List (String × List Cell) := [("treatment", [.int 1])]

/-- The flat tuple `fetch_uis` returns on `uisWorld` with `return_X_y`. -/
def uisTupleResult : FetchResult := .tuple uisXCols uisTargetCols uisTreatCols

/-- The bundle `fetch_uis` returns on `uisWorld` without `return_X_y`. -/
def uisBundleResult : FetchResult :=
  .bundle ⟨uisXCols, uisTargetCols, uisTreatCols,
    ["AGE", "BECK", "HC", "IV", "NDT", "RACE", "SITE", "LEN.T", "ND1", "ND2",
     "LNDT", "IV3"],
    ["target_time", "target_censor", "target_log_time", "target_FRAC"],
    some uisModuleDoc⟩

/-! ## Theorems: the classifier-as-regressor adapter. -/

/-- C2: for every wrapped estimator and every input, if the configured
response method of `predict` returns a result with more than two dimensions,
`predict` raises a fatal UnsupportedResponseShapeError. -/
theorem predict_highdim_unsupported {D I : Type} (c : ClassifierAsRegressor D I)
    (x : I) (f : FittedEstimator I) (resp : I → NDArr)
    (hf : c.fitted_estimator_ = some f)
    (hm : f.methods c.response_method = some resp)
    (hd : 2 < (resp x).shape.length) :
    c.predict x = .error .UnsupportedResponseShapeError := by
  simp [ClassifierAsRegressor.predict, hf, hm, hd]

/-- Witness for C2: a concrete adapter whose response is a 2x2x2 array. -/
theorem predict_highdim_unsupported_witness :
    car3d.predict () = .error .UnsupportedResponseShapeError :=
  predict_highdim_unsupported car3d () fitted3d resp3d rfl rfl (by decide)

/-- C3: for every wrapped estimator, a two-dimensional response is sliced at
the configured positive-label column — a one-dimensional result of length
equal to the row count whose i-th entry is the matrix entry at row i, column
pos_label, unmodified — and a one-dimensional response is returned
unchanged. -/
theorem predict_matrix_and_vector {D I : Type} (c : ClassifierAsRegressor D I)
    (x : I) (f : FittedEstimator I) (resp : I → NDArr)
    (hf : c.fitted_estimator_ = some f)
    (hm : f.methods c.response_method = some resp) :
    (∀ rows cols, (resp x).shape = [rows, cols] → c.pos_label < cols →
      c.predict x = .ok (colOf (resp x) rows cols c.pos_label) ∧
      (colOf (resp x) rows cols c.pos_label).shape = [rows] ∧
      (colOf (resp x) rows cols c.pos_label).data.length = rows ∧
      ∀ i, i < rows → (colOf (resp x) rows cols c.pos_label).data.get? i =
        some ((resp x).data.getD (i * cols + c.pos_label) 0)) ∧
    (∀ n, (resp x).shape = [n] → c.predict x = .ok (resp x)) := by
  constructor
  · intro rows cols hs hp
    refine ⟨?_, rfl, by simp [colOf], ?_⟩
    · simp [ClassifierAsRegressor.predict, hf, hm, hs, hp]
    · intro i hi
      simp [colOf, List.getElem?_map, List.getElem?_range, hi]
  · intro n hs
    simp [ClassifierAsRegressor.predict, hf, hm, hs]

/-- Witness for C3: the 2x2 probability matrix with pos_label 1 yields its
second column, and a 1-d decision score passes through unchanged. -/
theorem predict_matrix_and_vector_witness :
    car2d.predict () = .ok ⟨[2], [3/4, 1/2]⟩ ∧
    (ClassifierAsRegressor.mk estEx "decision_function" 1 (some fitted1d)).predict ()
      = .ok (resp1d ()) := by
  constructor
  · have h := (predict_matrix_and_vector car2d () fitted2d resp2d rfl rfl).1 2 2 rfl
      (by decide)
    exact h.1.trans rfl
  · exact (predict_matrix_and_vector
      (ClassifierAsRegressor.mk estEx "decision_function" 1 (some fitted1d))
      () fitted1d resp1d rfl rfl).2 3 rfl

/-- C8: for every wrapped estimator and fit arguments, `fit` delegates the
call fully to the wrapped estimator, stores the fitted estimator on the
adapter, and returns the adapter itself (all its other fields intact). -/
theorem fit_delegates_stores_returns_self {D I : Type}
    (c : ClassifierAsRegressor D I) (d : D) :
    c.fit d = ⟨c.estimator, c.response_method, c.pos_label,
               some (c.estimator.fit d)⟩ := rfl

/-- C5: for every attribute name that is not adapter-owned state, attribute
access on a ClassifierAsRegressor instance is forwarded to the fitted
estimator when one exists and to the unfitted wrapped estimator otherwise. -/
theorem getattr_forwards {D I : Type} (c : ClassifierAsRegressor D I)
    (name : String) (h : name ∉ adapterOwnedNames) :
    (∀ f, c.fitted_estimator_ = some f →
      c.getattrFull name =
        (match f.attrs name with
         | some v => .ok (.fwd v)
         | none => .error (.AttributeError name))) ∧
    (c.fitted_estimator_ = none →
      c.getattrFull name =
        (match c.estimator.attrs name with
         | some v => .ok (.fwd v)
         | none => .error (.AttributeError name))) := by
  simp only [adapterOwnedNames, List.mem_cons, List.not_mem_nil, or_false,
    not_or] at h
  obtain ⟨h1, h2, h3, h4⟩ := h
  constructor
  · intro f hf
    unfold ClassifierAsRegressor.getattrFull
    rw [if_neg h1, if_neg h2, if_neg h3, if_neg h4, hf]
  · intro hf
    unfold ClassifierAsRegressor.getattrFull
    rw [if_neg h1, if_neg h2, if_neg h3, if_neg h4, hf]

/-- Witness for C5: the non-owned name classes_ forwards to the unfitted
wrapped estimator on an unfitted adapter. -/
theorem getattr_forwards_witness :
    carUnfitted.getattrFull "classes_" = .ok (.fwd "unfitted3") := by
  have h := (getattr_forwards carUnfitted "classes_" (by decide)).2 rfl
  exact h.trans (by rfl)

/-! ## Theorems: deterministic shuffling. -/

/-- Helper: inserting one element grows a list by one. -/
theorem insertAt_length {α : Type} (x : α) (k : Nat) (l : List α) :
    (insertAt x k l).length = l.length + 1 := by
  have h := congrArg List.length (List.take_append_drop k l)
  simp only [List.length_append] at h
  simp only [insertAt, List.length_append, List.length_cons]
  omega

/-- Helper: membership after insertion. -/
theorem mem_insertAt {α : Type} {y x : α} {k : Nat} {l : List α} :
    y ∈ insertAt x k l ↔ y = x ∨ y ∈ l := by
  unfold insertAt
  constructor
  · intro h
    rcases List.mem_append.mp h with h1 | h2
    · exact Or.inr (List.take_subset k l h1)
    · rcases List.mem_cons.mp h2 with h3 | h4
      · exact Or.inl h3
      · exact Or.inr (List.drop_subset k l h4)
  · intro h
    rcases h with h1 | h2
    · subst h1
      exact List.mem_append_right _ (List.mem_cons_self _ _)
    · have h3 : y ∈ l.take k ++ l.drop k := by
        rw [List.take_append_drop]
        exact h2
      rcases List.mem_append.mp h3 with h4 | h5
      · exact List.mem_append_left _ h4
      · exact List.mem_append_right _ (List.mem_cons_of_mem _ h5)

/-- Helper: the drawn permutation has one index per row. -/
theorem permOf_length (seed : Nat) : ∀ n, (permOf seed n).length = n := by
  intro n
  induction n with
  | zero => rfl
  | succ m ih =>
    have ih2 : (permAux seed m).1.length = m := ih
    show (insertAt m (lcgStep (permAux seed m).2 % (m + 1))
      (permAux seed m).1).length = m + 1
    rw [insertAt_length, ih2]

/-- Helper: every drawn index is a valid row index. -/
theorem permOf_mem (seed : Nat) : ∀ n x, x ∈ permOf seed n → x < n := by
  intro n
  induction n with
  | zero =>
    intro x hx
    simp [permOf, permAux] at hx
  | succ m ih =>
    intro x hx
    have hx2 : x ∈ insertAt m (lcgStep (permAux seed m).2 % (m + 1))
        (permAux seed m).1 := hx
    rcases mem_insertAt.mp hx2 with h1 | h2
    · omega
    · exact Nat.lt_succ_of_lt (ih x h2)

/-- Helper: entry i of a permuted column. -/
theorem applyPerm_getElem? (p : List Nat) (col : List Cell) (i : Nat) :
    (applyPerm p col)[i]? = (p[i]?).map (fun j => col.getD j (.int 0)) := by
  simp [applyPerm, List.getElem?_map]

/-- C7: for every fixed seed and identical decoded input, two invocations of
the shuffling assembler produce identical row orderings, and one single
permutation drawn from the seeded generator is applied identically to every
feature, treatment, and target column: for each output row i there is one
source row src, the same across all columns of all column lists shuffled
with that seed, from which row i's value in every column is taken. -/
theorem shuffle_deterministic_rows_together (seed n : Nat)
    (cols cols2 : List (String × List Cell)) (i : Nat) (hi : i < n) :
    (cols2 = cols → shuffleCols seed n cols2 = shuffleCols seed n cols) ∧
    ∃ src, src < n ∧
      ∀ (cs : List (String × List Cell)) (k : Nat) (name : String)
        (col : List Cell), cs[k]? = some (name, col) → col.length = n →
        (shuffleCols seed n cs)[k]? =
          some (name, applyPerm (permOf seed n) col) ∧
        (applyPerm (permOf seed n) col)[i]? = col[src]? := by
  constructor
  · intro h
    rw [h]
  · have hlen : (permOf seed n).length = n := permOf_length seed n
    have hi2 : i < (permOf seed n).length := by
      rw [hlen]
      exact hi
    refine ⟨(permOf seed n).get ⟨i, hi2⟩, ?_, ?_⟩
    · exact permOf_mem seed n _ (List.get_mem _ i hi2)
    · intro cs k name col hk hcol
      constructor
      · simp [shuffleCols, List.getElem?_map, hk]
      · rw [applyPerm_getElem?]
        have hpi : (permOf seed n)[i]? = some ((permOf seed n).get ⟨i, hi2⟩) := by
          rw [List.getElem?_eq_getElem hi2]
          rfl
        rw [hpi]
        have hsrc : (permOf seed n).get ⟨i, hi2⟩ < col.length := by
          rw [hcol]
          exact permOf_mem seed n _ (List.get_mem _ i hi2)
        show some (col.getD ((permOf seed n).get ⟨i, hi2⟩) (.int 0)) =
          col[(permOf seed n).get ⟨i, hi2⟩]?
        rw [List.getD_eq_getElem?_getD, List.getElem?_eq_getElem hsrc]
        rfl

/-- Witness for C7 at seed 1 on two columns of two rows. -/
theorem shuffle_deterministic_witness :
    (colsEx = colsEx → shuffleCols 1 2 colsEx = shuffleCols 1 2 colsEx) ∧
    ∃ src, src < 2 ∧
      ∀ (cs : List (String × List Cell)) (k : Nat) (name : String)
        (col : List Cell), cs[k]? = some (name, col) → col.length = 2 →
        (shuffleCols 1 2 cs)[k]? =
          some (name, applyPerm (permOf 1 2) col) ∧
        (applyPerm (permOf 1 2) col)[0]? = col[src]? :=
  shuffle_deterministic_rows_together 1 2 colsEx colsEx 0 (by decide)

/-! ## Theorems: the column decoder. -/

/-- C4: for every categorical column with a declared value set, decoding
with categ_as_strings false maps a declared token to the same integer code
at every row (stability), that code being the token's zero-based index in
the value set; decoding with categ_as_strings true returns the token
unchanged; a token outside the value set raises UnknownCategoryError. -/
theorem categ_decoding_stable_indexed_strings (values : List String)
    (name : String) (row row2 : Nat) (tok : String) :
    (tok ∈ values →
      decodeCell (.categ values) false name row tok =
        .ok (.int (Int.ofNat (values.indexOf tok))) ∧
      decodeCell (.categ values) false name row tok =
        decodeCell (.categ values) false name row2 tok ∧
      decodeCell (.categ values) true name row tok = .ok (.str tok)) ∧
    (tok ∉ values → ∀ cas, decodeCell (.categ values) cas name row tok =
      .error (.UnknownCategoryError name row)) := by
  constructor
  · intro h
    exact ⟨by simp [decodeCell, h], by simp [decodeCell, h],
      by simp [decodeCell, h]⟩
  · intro h cas
    simp [decodeCell, h]

/-- Witness for C4 on the UIS HC column: token 3 gets code 2 (its index in
the declared set) or stays the string 3, and the undeclared token 5 raises
UnknownCategoryError. -/
theorem categ_decoding_witness :
    decodeCell (.categ hc_values) false "HC" 0 "3" = .ok (.int 2) ∧
    decodeCell (.categ hc_values) true "HC" 0 "3" = .ok (.str "3") ∧
    decodeCell (.categ hc_values) false "HC" 0 "5" =
      .error (.UnknownCategoryError "HC" 0) := by
  have h3 := (categ_decoding_stable_indexed_strings hc_values "HC" 0 7 "3").1
    (by decide)
  have h5 := (categ_decoding_stable_indexed_strings hc_values "HC" 0 7 "5").2
    (by decide) false
  exact ⟨h3.1.trans rfl, h3.2.2, h5⟩

/-! ## Theorems: the integrity-verified fetcher. -/

/-- C6: for every resource descriptor, when the artifact is absent from the
local cache and download_if_missing is false, the fetch — and hence
fetch_uis — fails with a MissingResourceError rather than downloading. -/
theorem missing_resource_faststop (d : RemoteFileMetadata)
    (logical_name : String) (w : FetchWorld) (random_state : Option Nat)
    (sh cas rXy af : Bool)
    (h : w.cache.find? (fun c => c.1 == logical_name) = none)
    (h2 : w.cache.find? (fun c => c.1 == "uis") = none) :
    fetchRaw d logical_name w false =
      .error (.MissingResourceError logical_name) ∧
    fetch_uis w false random_state sh cas rXy af =
      .error (.MissingResourceError "uis") := by
  constructor
  · simp [fetchRaw, h]
  · have hbase : fetchRaw ARCHIVE "uis" w false =
        .error (.MissingResourceError "uis") := by
      simp [fetchRaw, h2]
    simp [fetch_uis, fetch_remote_csv, hbase]

/-- Witness for C6: the empty cache world fails fast for both an arbitrary
descriptor and the UIS loader. -/
theorem missing_resource_witness :
    fetchRaw ARCHIVE "uis2" emptyWorld false =
      .error (.MissingResourceError "uis2") ∧
    fetch_uis emptyWorld false none false false false false =
      .error (.MissingResourceError "uis") :=
  missing_resource_faststop ARCHIVE "uis2" emptyWorld none false false false
    false rfl rfl

/-- Helper: decoding one cell never yields an IntegrityError. -/
theorem exceptIntegrity_decodeCell (ty : ColType) (cas : Bool) (name : String)
    (row : Nat) (tok : String) :
    exceptIntegrity (decodeCell ty cas name row tok) = false := by
  rcases ty with _ | _ | vs
  · simp only [decodeCell]
    cases parseIntTok tok <;> rfl
  · simp only [decodeCell]
    cases parseDecimal tok <;> rfl
  · simp only [decodeCell]
    by_cases h : tok ∈ vs
    · rw [if_pos h]
      cases cas <;> rfl
    · rw [if_neg h]
      rfl

/-- Helper: decoding a column never yields an IntegrityError. -/
theorem exceptIntegrity_decodeColumnFrom (ty : ColType) (cas : Bool)
    (name : String) :
    ∀ row toks, exceptIntegrity (decodeColumnFrom ty cas name row toks) = false := by
  intro row toks
  induction toks generalizing row with
  | nil => rfl
  | cons t ts ih =>
    unfold decodeColumnFrom
    cases hc : decodeCell ty cas name row t with
    | error e =>
      have h := exceptIntegrity_decodeCell ty cas name row t
      rw [hc] at h
      exact h
    | ok c =>
      cases hr : decodeColumnFrom ty cas name (row + 1) ts with
      | error e =>
        have h := ih (row + 1)
        rw [hr] at h
        exact h
      | ok cs => rfl

/-- Helper: decoding a table never yields an IntegrityError. -/
theorem exceptIntegrity_decodeTable (cas : Bool) (raw : RawTable) :
    ∀ specs, exceptIntegrity (decodeTable cas raw specs) = false := by
  intro specs
  induction specs with
  | nil => rfl
  | cons s ss ih =>
    unfold decodeTable
    split
    · rfl
    · rename_i col hcol
      split
      · rename_i e he
        have h := exceptIntegrity_decodeColumnFrom s.ty cas s.output_name 0 col
        rw [he] at h
        exact h
      · rename_i cells hc
        split
        · rename_i e he
          rw [he] at ih
          exact ih
        · rfl

/-- Helper: parsing never yields an IntegrityError. -/
theorem exceptIntegrity_parseCSV (content : String) :
    exceptIntegrity (parseCSV content) = false := by
  unfold parseCSV
  split
  · rfl
  · dsimp only
    split <;> rfl

/-- Helper: on a descriptor with no declared checksum the fetch never
yields an IntegrityError. -/
theorem exceptIntegrity_fetchRaw (d : RemoteFileMetadata)
    (hn : d.checksum = none) (logical_name : String) (w : FetchWorld)
    (dim : Bool) :
    exceptIntegrity (fetchRaw d logical_name w dim) = false := by
  unfold fetchRaw
  rw [hn]
  cases w.cache.find? (fun c => c.1 == logical_name) with
  | some entry => rfl
  | none =>
    cases dim
    · rfl
    · cases w.remote d.url <;> rfl

/-- Helper: with no declared checksum the whole pipeline never yields an
IntegrityError. -/
theorem exceptIntegrity_fetch_remote_csv (archive : RemoteFileMetadata)
    (hn : archive.checksum = none) (logical_name : String)
    (fa ta ga : List ColumnSpec) (cas rXy af dim sh : Bool)
    (rs : Option Nat) (tot : Nat) (w : FetchWorld) :
    exceptIntegrity (fetch_remote_csv archive logical_name fa ta ga cas rXy af
      dim sh rs tot w) = false := by
  unfold fetch_remote_csv
  split
  · rename_i e hf
    have h := exceptIntegrity_fetchRaw archive hn logical_name w dim
    rw [hf] at h
    exact h
  · rename_i pr hf
    split
    · rename_i e hp
      have h := exceptIntegrity_parseCSV pr.1
      rw [hp] at h
      exact h
    · rename_i raw hp
      split
      · rename_i e h1
        have h := exceptIntegrity_decodeTable cas raw fa
        rw [h1] at h
        exact h
      · rename_i feats h1
        split
        · rename_i e h2
          have h := exceptIntegrity_decodeTable cas raw ta
          rw [h2] at h
          exact h
        · rename_i treats h2
          split
          · rename_i e h3
            have h := exceptIntegrity_decodeTable cas raw ga
            rw [h3] at h
            exact h
          · rename_i targs h3
            cases rXy <;> rfl

/-- Helper: fetch_uis never yields an IntegrityError. -/
theorem exceptIntegrity_fetch_uis (w : FetchWorld) (dim : Bool)
    (rs : Option Nat) (sh cas rXy af : Bool) :
    exceptIntegrity (fetch_uis w dim rs sh cas rXy af) = false := by
  unfold fetch_uis
  split
  · rename_i e hf
    have h := exceptIntegrity_fetch_remote_csv ARCHIVE rfl "uis" feature_descr
      treatment_descr target_descr cas rXy af dim sh rs 17 w
    rw [hf] at h
    exact h
  · rename_i ret hf
    cases rXy
    · cases ret <;> rfl
    · rfl

/-- C9: the UIS resource descriptor is declared with no checksum and the
local location local:uis_data, so no content-hash verification is performed:
the IntegrityError branch of the fetcher is unreachable for this dataset,
both at the fetch step and through fetch_uis. -/
theorem archive_integrity_unreachable :
    ARCHIVE.checksum = none ∧ ARCHIVE.url = "local:uis_data" ∧
    (∀ w dim, exceptIntegrity (fetchRaw ARCHIVE "uis" w dim) = false) ∧
    (∀ w dim rs sh cas rXy af,
      exceptIntegrity (fetch_uis w dim rs sh cas rXy af) = false) := by
  refine ⟨rfl, rfl, ?_, ?_⟩
  · intro w dim
    exact exceptIntegrity_fetchRaw ARCHIVE rfl "uis" w dim
  · intro w dim rs sh cas rXy af
    exact exceptIntegrity_fetch_uis w dim rs sh cas rXy af

/-! ## Theorems: result shapes of the assembler and the UIS loader. -/

/-- Helper: a decoded table carries the declared output names in declared
order. -/
theorem decodeTable_names (cas : Bool) (raw : RawTable) :
    ∀ specs cols, decodeTable cas raw specs = .ok cols →
      cols.map Prod.fst = specs.map (fun s => s.output_name) := by
  intro specs
  induction specs with
  | nil =>
    intro cols h
    simp only [decodeTable] at h
    injection h with h2
    rw [← h2]
    rfl
  | cons s ss ih =>
    intro cols h
    unfold decodeTable at h
    split at h
    · exact Except.noConfusion h
    · rename_i col hcol
      split at h
      · exact Except.noConfusion h
      · rename_i cells hcells
        split at h
        · exact Except.noConfusion h
        · rename_i rest hrest
          injection h with h2
          rw [← h2]
          simp [ih rest hrest]

/-- Helper: shuffling does not change the column names. -/
theorem shuffleCols_names (seed n : Nat) (cols : List (String × List Cell)) :
    (shuffleCols seed n cols).map Prod.fst = cols.map Prod.fst := by
  simp [shuffleCols, List.map_map, Function.comp]

/-- Helper: with return_X_y the pipeline renders the flat tuple
(features, targets in declared order, treatment), keeping declared names. -/
theorem fetch_remote_csv_tuple_shape (archive : RemoteFileMetadata)
    (logical_name : String) (fa ta ga : List ColumnSpec)
    (cas af dim sh : Bool) (rs : Option Nat) (tot : Nat) (w : FetchWorld)
    (r : FetchResult)
    (h : fetch_remote_csv archive logical_name fa ta ga cas true af dim sh rs
      tot w = .ok r) :
    ∃ X targs treats, r = .tuple X targs treats ∧
      X.map Prod.fst = fa.map (fun s => s.output_name) ∧
      targs.map Prod.fst = ga.map (fun s => s.output_name) ∧
      treats.map Prod.fst = ta.map (fun s => s.output_name) := by
  unfold fetch_remote_csv at h
  split at h
  · exact Except.noConfusion h
  · rename_i pr hf
    split at h
    · exact Except.noConfusion h
    · rename_i raw hp
      split at h
      · exact Except.noConfusion h
      · rename_i feats h1
        split at h
        · exact Except.noConfusion h
        · rename_i treats h2
          split at h
          · exact Except.noConfusion h
          · rename_i targs h3
            dsimp only at h
            injection h with h4
            refine ⟨_, _, _, h4.symm, ?_, ?_, ?_⟩
            · cases sh <;>
                simp [shuffleCols_names, decodeTable_names cas raw fa feats h1]
            · cases sh <;>
                simp [shuffleCols_names, decodeTable_names cas raw ga targs h3]
            · cases sh <;>
                simp [shuffleCols_names, decodeTable_names cas raw ta treats h2]

/-- Helper: without return_X_y the pipeline renders a bundle with no
description attached yet, carrying every declared target name. -/
theorem fetch_remote_csv_bundle_shape (archive : RemoteFileMetadata)
    (logical_name : String) (fa ta ga : List ColumnSpec)
    (cas af dim sh : Bool) (rs : Option Nat) (tot : Nat) (w : FetchWorld)
    (r : FetchResult)
    (h : fetch_remote_csv archive logical_name fa ta ga cas false af dim sh rs
      tot w = .ok r) :
    ∃ b, r = .bundle b ∧ b.descr = none ∧
      b.data.map Prod.fst = fa.map (fun s => s.output_name) ∧
      b.targets.map Prod.fst = ga.map (fun s => s.output_name) ∧
      b.target_names = ga.map (fun s => s.output_name) ∧
      b.treatment.map Prod.fst = ta.map (fun s => s.output_name) := by
  unfold fetch_remote_csv at h
  split at h
  · exact Except.noConfusion h
  · rename_i pr hf
    split at h
    · exact Except.noConfusion h
    · rename_i raw hp
      split at h
      · exact Except.noConfusion h
      · rename_i feats h1
        split at h
        · exact Except.noConfusion h
        · rename_i treats h2
          split at h
          · exact Except.noConfusion h
          · rename_i targs h3
            dsimp only at h
            injection h with h4
            refine ⟨_, h4.symm, rfl, ?_, ?_, rfl, ?_⟩
            · cases sh <;>
                simp [shuffleCols_names, decodeTable_names cas raw fa feats h1]
            · cases sh <;>
                simp [shuffleCols_names, decodeTable_names cas raw ga targs h3]
            · cases sh <;>
                simp [shuffleCols_names, decodeTable_names cas raw ta treats h2]

/-- C1: the UIS schema declares four targets, and every caller-facing result
exposes all four by name: with return_X_y true, fetch_uis returns the flat
tuple of the features (under their declared names, in declared order)
followed by all four targets target_time, target_censor, target_log_time,
target_FRAC in declared order, followed by the treatment column, none
omitted; with return_X_y false, the bundle likewise names all four. -/
theorem fetch_uis_exposes_four_targets (w : FetchWorld) (dim : Bool)
    (rs : Option Nat) (sh cas af : Bool) (r rb : FetchResult)
    (h : fetch_uis w dim rs sh cas true af = .ok r)
    (hb : fetch_uis w dim rs sh cas false af = .ok rb) :
    (∃ X targs treats, r = .tuple X targs treats ∧
      targs.map Prod.fst =
        ["target_time", "target_censor", "target_log_time", "target_FRAC"] ∧
      targs.length = 4 ∧
      X.map Prod.fst =
        ["AGE", "BECK", "HC", "IV", "NDT", "RACE", "SITE", "LEN.T", "ND1",
         "ND2", "LNDT", "IV3"] ∧
      treats.map Prod.fst = ["treatment"]) ∧
    (∃ b, rb = .bundle b ∧
      b.targets.map Prod.fst =
        ["target_time", "target_censor", "target_log_time", "target_FRAC"] ∧
      b.target_names =
        ["target_time", "target_censor", "target_log_time", "target_FRAC"]) := by
  constructor
  · unfold fetch_uis at h
    split at h
    · exact Except.noConfusion h
    · rename_i ret hf
      injection h with h2
      subst h2
      obtain ⟨X, targs, treats, hr, hX, hT, hTr⟩ :=
        fetch_remote_csv_tuple_shape ARCHIVE "uis" feature_descr
          treatment_descr target_descr cas af dim sh rs 17 w ret hf
      refine ⟨X, targs, treats, hr, ?_, ?_, ?_, ?_⟩
      · rw [hT]
        rfl
      · have := congrArg List.length hT
        simpa using this
      · rw [hX]
        rfl
      · rw [hTr]
        rfl
  · unfold fetch_uis at hb
    split at hb
    · exact Except.noConfusion hb
    · rename_i ret hf
      obtain ⟨b0, hr, hdescr, hX, hT, hTn, hTr⟩ :=
        fetch_remote_csv_bundle_shape ARCHIVE "uis" feature_descr
          treatment_descr target_descr cas af dim sh rs 17 w ret hf
      subst hr
      dsimp only at hb
      injection hb with h2
      subst h2
      refine ⟨_, rfl, ?_, ?_⟩
      · rw [show ({ b0 with descr := some uisModuleDoc } : DatasetBundle).targets
            = b0.targets from rfl, hT]
        rfl
      · rw [show ({ b0 with descr := some uisModuleDoc } : DatasetBundle).target_names
            = b0.target_names from rfl, hTn]
        rfl

/-- Witness for C1 on a concrete cached UIS artifact with one data row. -/
theorem fetch_uis_exposes_four_targets_witness :
    (∃ X targs treats, uisTupleResult = FetchResult.tuple X targs treats ∧
      targs.map Prod.fst =
        ["target_time", "target_censor", "target_log_time", "target_FRAC"] ∧
      targs.length = 4 ∧
      X.map Prod.fst =
        ["AGE", "BECK", "HC", "IV", "NDT", "RACE", "SITE", "LEN.T", "ND1",
         "ND2", "LNDT", "IV3"] ∧
      treats.map Prod.fst = ["treatment"]) ∧
    (∃ b, uisBundleResult = FetchResult.bundle b ∧
      b.targets.map Prod.fst =
        ["target_time", "target_censor", "target_log_time", "target_FRAC"] ∧
      b.target_names =
        ["target_time", "target_censor", "target_log_time", "target_FRAC"]) :=
  fetch_uis_exposes_four_targets uisWorld true none false false false
    uisTupleResult uisBundleResult (by rfl) (by rfl)

/-- C10: fetch_uis attaches the module docstring as the description only
when return_X_y is false; with return_X_y true the result is the flat
tuple, which carries no description. -/
theorem fetch_uis_descr_only_without_X_y (w : FetchWorld) (dim : Bool)
    (rs : Option Nat) (sh cas af b : Bool) (r : FetchResult)
    (h : fetch_uis w dim rs sh cas b af = .ok r) :
    (b = true → ∃ X targs treats, r = .tuple X targs treats) ∧
    (b = false → ∃ bd, r = .bundle bd ∧ bd.descr = some uisModuleDoc) := by
  cases b
  · refine ⟨fun hb => Bool.noConfusion hb, fun _ => ?_⟩
    unfold fetch_uis at h
    split at h
    · exact Except.noConfusion h
    · rename_i ret hf
      obtain ⟨b0, hr, hdescr, hX, hT, hTn, hTr⟩ :=
        fetch_remote_csv_bundle_shape ARCHIVE "uis" feature_descr
          treatment_descr target_descr cas af dim sh rs 17 w ret hf
      subst hr
      dsimp only at h
      injection h with h2
      subst h2
      exact ⟨_, rfl, rfl⟩
  · refine ⟨fun _ => ?_, fun hb => Bool.noConfusion hb⟩
    unfold fetch_uis at h
    split at h
    · exact Except.noConfusion h
    · rename_i ret hf
      injection h with h2
      subst h2
      obtain ⟨X, targs, treats, hr, hX, hT, hTr⟩ :=
        fetch_remote_csv_tuple_shape ARCHIVE "uis" feature_descr
          treatment_descr target_descr cas af dim sh rs 17 w ret hf
      exact ⟨X, targs, treats, hr⟩

/-- Witness for C10: on the concrete artifact, the bundle carries the
module docstring and the tuple result is a bare tuple. -/
theorem fetch_uis_descr_witness :
    (∃ bd, uisBundleResult = FetchResult.bundle bd ∧
      bd.descr = some uisModuleDoc) ∧
    (∃ X targs treats, uisTupleResult = FetchResult.tuple X targs treats) :=
  ⟨(fetch_uis_descr_only_without_X_y uisWorld true none false false false
      false uisBundleResult (by rfl)).2 rfl,
   (fetch_uis_descr_only_without_X_y uisWorld true none false false false
      true uisTupleResult (by rfl)).1 rfl⟩

end USK
